import Mathlib

/-!
Shallow embedding of `src/arduino/authoduino/authoduino.ino`.

The program is a cooperative control loop for an EV-charging relay.  We embed
the loop body (`loop`), the serial command parser (`readSerial`) and the
iButton read glue (`readButton`) as pure Lean functions.  Hardware and
library collaborators (the `millis()` clock, the serial byte streams, the
OneWire bus and its `crc8` routine, the GPIO pins) are modelled as explicit
inputs and outputs of one loop iteration:

* `millis()` is a free-running `unsigned long` (32-bit) tick counter; each
  loop iteration is given a single tick value `now : Nat` (the loop body is
  far faster than the millisecond clock resolution, so all `millis()` calls
  within one iteration read the same value).  Arithmetic on ticks is modular
  with modulus `M = 2^32`, made explicit by `usub`.
* the inbound serial stream is a `List Char` buffer; the bytes the parser
  does not consume are carried to the next iteration.
* one OneWire read transaction is an oracle value `TokenRead`: either no
  device answered, or an 8-byte identifier was read together with the result
  of the library-side checksum comparison `OneWire::crc8(id, 7) == id[7]`
  (the CRC routine itself lives in the external OneWire library, outside
  this repository, so only its boolean verdict appears in the model).
* outbound serial bytes are `String`s; the relay pin is a `Bool`.  The LED
  helper `led()` only drives the two indicator pins and touches no state
  shared with the control logic other than `lastblink`, which affects
  nothing but the LEDs, so it is omitted from the model.
-/

set_option maxRecDepth 4000

namespace Authoduino

/-- Modulus of the `unsigned long` tick counter: 2^32. -/
def M : Nat := 4294967296

/-- `#define BUTTON_INTERVAL_TIME 3000` -/
def BUTTON_INTERVAL_TIME : Nat := 3000

/-- `#define ABANDONED_TIME 30000` -/
def ABANDONED_TIME : Nat := 30000

/-- `#define ABANDONED_MSG_INTERVAL 5000` -/
def ABANDONED_MSG_INTERVAL : Nat := 5000

/-- Unsigned 32-bit subtraction `a - b`, the wraparound arithmetic of
`unsigned long` on the Arduino. -/
def usub (a b : Nat) : Nat :=
  (a % M + (M - b % M)) % M

/-- The elapsed-time test pattern the loop uses three times (watchdog,
token-read debounce, abandoned beacon):
`millis() - D > T && millis() > D` with `now = millis()`. -/
def intervalGate (now T D : Nat) : Bool :=
  decide (usub now D > T) && decide (now > D)

/-- `enum Command` of the sketch. -/
inductive Command where
  | NONE
  | ENABLE
  | DISABLE
  | PING
deriving DecidableEq

/-- `enum State` of the sketch. -/
inductive State where
  | ABANDONED
  | ENABLED
  | DISABLED
deriving DecidableEq

open Command State

/-- The global mutable variables of the sketch that feed back into the
control logic: `state`, `lastread`, `lastcmd`, `lastmsg`. -/
structure Ctx where
  state : State
  lastread : Nat
  lastcmd : Nat
  lastmsg : Nat
deriving DecidableEq

/-- `setup()` leaves `state = ABANDONED` and all timestamps at 0. -/
def initCtx : Ctx := ⟨ABANDONED, 0, 0, 0⟩

/-- Outcome of one OneWire read transaction, as seen by `readButton`:
either no device answered the reset/search, or an 8-byte identifier was
read, together with the verdict of `OneWire::crc8(id, 7) == id[7]`. -/
inductive TokenRead where
  | absent
  | present (id : List Nat) (crcOk : Bool)
deriving DecidableEq

/-- One hexadecimal digit as printed by Arduino `Print::printNumber`
(uppercase letters). -/
def hexDigit (n : Nat) : Char :=
  if n < 10 then Char.ofNat (48 + n) else Char.ofNat (55 + n)

/-- `Serial.print(b, HEX)` for one byte `b < 256`: the number in base 16,
no leading zeros (a single digit when `b < 16`). -/
def printHexNum (b : Nat) : String :=
  if b < 16 then String.mk [hexDigit b]
  else String.mk [hexDigit (b / 16), hexDigit (b % 16)]

/-- The return value of `readButton()`: `true` exactly when a device
answered the reset/search and its checksum comparison succeeded. -/
def readButtonOk : TokenRead → Bool
  | .absent => false
  | .present _ crcOk => crcOk

/-- The serial bytes `readButton()` writes.  A failed reset/search or a
checksum mismatch writes nothing (the checksum is tested before any output).
On success the identifier is dumped byte by byte: `"<"`, then for each byte
a `"0"` pad when the byte is below 16 followed by `Serial.print(id[i], HEX)`,
then `">"` and the line break of `println`. -/
def readButtonOut : TokenRead → String
  | .absent => ""
  | .present id crcOk =>
    if crcOk = false then ""
    else "<" ++ id.foldl (fun acc b =>
      acc ++ (if b < 16 then "0" else "") ++ printHexNum b) "" ++ ">\n"

/-- `readButton()` as a whole: its return value paired with the bytes it
wrote to serial. -/
def readButton (tok : TokenRead) : Bool × String :=
  (readButtonOk tok, readButtonOut tok)

/-- `readSerial()`: consume buffered inbound bytes one at a time until the
buffer is empty or a recognized byte is found.  Returns the parsed command,
the bytes left in the buffer, and the acknowledgement written to serial. -/
def readSerial : List Char → Command × List Char × String
  | [] => (NONE, [], "")
  | c :: rest =>
    if c = 'E' then (ENABLE, rest, "ENABLED\n")
    else if c = 'D' then (DISABLE, rest, "DISABLED\n")
    else if c = 'P' then (PING, rest, "PONG\n")
    else readSerial rest

/-- The `switch (command)` block: `ENABLE` and `DISABLE` set the state,
`PING` and `NONE` leave it unchanged. -/
def cmdState (s : State) : Command → State
  | ENABLE => ENABLED
  | DISABLE => DISABLED
  | _ => s

/-- Everything one call of `loop()` produces: the new globals, the bytes
left in the inbound buffer, the command that was parsed, the relay pin
level, and the serial output split by origin (the iteration writes them in
the order `ack`, `idOut`, `beacon`). -/
structure LoopResult where
  ctx : Ctx
  buf : List Char
  cmd : Command
  relay : Bool
  ack : String
  idOut : String
  beacon : String
deriving DecidableEq

/-- The relay drive of the output `switch (state)`: `digitalWrite(PIN_RELAY, HIGH)`
only in the `ENABLED` branch, `LOW` in the `DISABLED` and `ABANDONED` branches
(lines 140-160). -/
def relayDrive : State → Bool
  | ENABLED => true
  | DISABLED => false
  | ABANDONED => false

/-- The overflow guard at the top of `loop()`:
`if (millis() < lastcmd) lastcmd = 0;`. -/
def lastcmdIn (ctx : Ctx) (now : Nat) : Nat :=
  if now < ctx.lastcmd then 0 else ctx.lastcmd

/-- `lastcmd` after the watchdog refresh
`if (command != NONE) lastcmd = millis();`. -/
def lastcmdSeen (ctx : Ctx) (now : Nat) (cmd : Command) : Nat :=
  if cmd ≠ NONE then now else lastcmdIn ctx now

/-- The authorization state after command processing and the watchdog-expiry
override
`if (millis() - ABANDONED_TIME > lastcmd && millis() > ABANDONED_TIME) state = ABANDONED;`,
i.e. the value of `state` from line 127 to the end of the iteration (nothing
later in the iteration assigns `state`). -/
def postState (ctx : Ctx) (now : Nat) (cmd : Command) : State :=
  if intervalGate now (lastcmdSeen ctx now cmd) ABANDONED_TIME then ABANDONED
  else cmdState ctx.state cmd

/-- The guard of the token-read step (lines 130-132): `readButton()` is
called only when the state is not `ABANDONED` and the debounce gate
`millis() - BUTTON_INTERVAL_TIME > lastread && millis() > BUTTON_INTERVAL_TIME`
fires. -/
def readFires (ctx : Ctx) (now : Nat) (cmd : Command) : Bool :=
  decide (postState ctx now cmd ≠ ABANDONED) &&
    intervalGate now ctx.lastread BUTTON_INTERVAL_TIME

/-- Whether the iteration performed a successful token read
(`if (readButton()) lastread = millis();`). -/
def readSucceeded (ctx : Ctx) (now : Nat) (cmd : Command) (tok : TokenRead) : Bool :=
  if readFires ctx now cmd then readButtonOk tok else false

/-- The identifier bytes the iteration writes to serial: the output of
`readButton()` when the guard let it run, nothing otherwise. -/
def readOutput (ctx : Ctx) (now : Nat) (cmd : Command) (tok : TokenRead) : String :=
  if readFires ctx now cmd then readButtonOut tok else ""

/-- The beacon gate of the `ABANDONED` output branch (line 154):
`millis() - ABANDONED_MSG_INTERVAL > lastmsg && millis() > ABANDONED_MSG_INTERVAL`,
reached only in state `ABANDONED`. -/
def beaconFires (ctx : Ctx) (now : Nat) (cmd : Command) : Bool :=
  decide (postState ctx now cmd = ABANDONED) &&
    intervalGate now ctx.lastmsg ABANDONED_MSG_INTERVAL

/-- One call of `loop()`, given the current globals `ctx`, the tick value
`now`, the buffered inbound bytes `buf` and the OneWire outcome `tok`.  The
body follows the source line by line through the named pieces above:
overflow guard, `readSerial`, watchdog refresh, command `switch`, watchdog
expiry, guarded `readButton` with `lastread` update, output drive with the
beacon gate of the `ABANDONED` branch. -/
def stepLoop (ctx : Ctx) (now : Nat) (buf : List Char) (tok : TokenRead) :
    LoopResult :=
  let parsed := readSerial buf
  let command := parsed.1
  let lastcmd1 := lastcmdSeen ctx now command
  let state2 := postState ctx now command
  let lastread1 := if readSucceeded ctx now command tok then now else ctx.lastread
  let lastmsg1 := if beaconFires ctx now command then now else ctx.lastmsg
  { ctx := ⟨state2, lastread1, lastcmd1, lastmsg1⟩
    buf := parsed.2.1
    cmd := command
    relay := relayDrive state2
    ack := parsed.2.2
    idOut := readOutput ctx now command tok
    beacon := if beaconFires ctx now command then "ABANDONED\n" else "" }

/-- Inputs of one loop iteration: the tick value, the inbound bytes that
arrived since the previous iteration, and the OneWire outcome. -/
structure IterIn where
  now : Nat
  bytes : List Char
  tok : TokenRead
deriving DecidableEq

/-- A run of the loop: iterate `stepLoop` over a list of per-iteration
inputs, threading the globals and the unconsumed inbound bytes, and record
every iteration's result. -/
def runLoop (ctx : Ctx) (buf : List Char) : List IterIn → List LoopResult
  | [] => []
  | i :: rest =>
    let r := stepLoop ctx i.now (buf ++ i.bytes) i.tok
    r :: runLoop r.ctx r.buf rest

theorem stepLoop_cmd (ctx : Ctx) (now : Nat) (buf : List Char) (tok : TokenRead) :
    (stepLoop ctx now buf tok).cmd = (readSerial buf).1 := rfl

theorem stepLoop_buf (ctx : Ctx) (now : Nat) (buf : List Char) (tok : TokenRead) :
    (stepLoop ctx now buf tok).buf = (readSerial buf).2.1 := by
  simp only [stepLoop]

theorem stepLoop_ack (ctx : Ctx) (now : Nat) (buf : List Char) (tok : TokenRead) :
    (stepLoop ctx now buf tok).ack = (readSerial buf).2.2 := by
  simp only [stepLoop]

theorem stepLoop_state (ctx : Ctx) (now : Nat) (buf : List Char) (tok : TokenRead) :
    (stepLoop ctx now buf tok).ctx.state = postState ctx now (readSerial buf).1 := by
  simp only [stepLoop]

theorem stepLoop_relay (ctx : Ctx) (now : Nat) (buf : List Char) (tok : TokenRead) :
    (stepLoop ctx now buf tok).relay =
      relayDrive (postState ctx now (readSerial buf).1) := by
  simp only [stepLoop]

theorem stepLoop_idOut (ctx : Ctx) (now : Nat) (buf : List Char) (tok : TokenRead) :
    (stepLoop ctx now buf tok).idOut =
      readOutput ctx now (readSerial buf).1 tok := by
  simp only [stepLoop]

theorem stepLoop_lastread (ctx : Ctx) (now : Nat) (buf : List Char) (tok : TokenRead) :
    (stepLoop ctx now buf tok).ctx.lastread =
      (if readSucceeded ctx now (readSerial buf).1 tok then now else ctx.lastread) := by
  simp only [stepLoop]

theorem stepLoop_lastcmd (ctx : Ctx) (now : Nat) (buf : List Char) (tok : TokenRead) :
    (stepLoop ctx now buf tok).ctx.lastcmd =
      lastcmdSeen ctx now (readSerial buf).1 := by
  simp only [stepLoop]

theorem stepLoop_lastmsg (ctx : Ctx) (now : Nat) (buf : List Char) (tok : TokenRead) :
    (stepLoop ctx now buf tok).ctx.lastmsg =
      (if beaconFires ctx now (readSerial buf).1 then now else ctx.lastmsg) := by
  simp only [stepLoop]

theorem stepLoop_beacon (ctx : Ctx) (now : Nat) (buf : List Char) (tok : TokenRead) :
    (stepLoop ctx now buf tok).beacon =
      (if beaconFires ctx now (readSerial buf).1 then "ABANDONED\n" else "") := by
  simp only [stepLoop]

/-! ### Arithmetic of the interval gate -/

theorem usub_of_le (a b : Nat) (hb : b ≤ a) (ha : a < M) : usub a b = a - b := by
  have hbM : b < M := lt_of_le_of_lt hb ha
  unfold usub
  rw [Nat.mod_eq_of_lt ha, Nat.mod_eq_of_lt hbM]
  have h1 : a + (M - b) = (a - b) + M := by omega
  rw [h1, Nat.add_mod_right, Nat.mod_eq_of_lt (by omega)]

/-- For in-range arguments the combined test `now - D > T && now > D` is the
plain (non-modular) comparison `T + D < now`. -/
theorem intervalGate_true_iff (now T D : Nat) (hn : now < M) :
    intervalGate now T D = true ↔ T + D < now := by
  unfold intervalGate
  rw [Bool.and_eq_true, decide_eq_true_eq, decide_eq_true_eq]
  constructor
  · rintro ⟨h1, h2⟩
    rw [usub_of_le now D (le_of_lt h2) hn] at h1
    omega
  · intro h
    have h2 : D < now := by omega
    rw [usub_of_le now D (le_of_lt h2) hn]
    exact ⟨by omega, h2⟩

/-- A gate whose timestamp was refreshed to the current tick cannot fire in
the same iteration. -/
theorem intervalGate_now_now (now D : Nat) (hn : now < M) :
    intervalGate now now D = false := by
  by_contra h
  have := (intervalGate_true_iff now now D hn).mp (by
    cases hgate : intervalGate now now D with
    | false => exact absurd hgate h
    | true => rfl)
  omega

/-- The gate never fires while the raw tick count is at most the duration. -/
theorem intervalGate_le (now T D : Nat) (h : now ≤ D) :
    intervalGate now T D = false := by
  unfold intervalGate
  have : decide (now > D) = false := by simp; omega
  rw [this, Bool.and_false]

/-! ### Structure of the post-expiry state -/

theorem relayDrive_eq_true_iff (s : State) : relayDrive s = true ↔ s = ENABLED := by
  cases s <;> simp [relayDrive]

theorem cmdState_stay (s : State) (cmd : Command)
    (h : cmd = NONE ∨ cmd = PING) : cmdState s cmd = s := by
  rcases h with h | h <;> rw [h] <;> rfl

/-- A command refreshes the watchdog before the expiry test, so the expiry
test of the same iteration compares against the current tick and cannot
fire. -/
theorem postState_of_cmd (ctx : Ctx) (now : Nat) (cmd : Command)
    (hn : now < M) (hc : cmd ≠ NONE) :
    postState ctx now cmd = cmdState ctx.state cmd := by
  unfold postState lastcmdSeen
  rw [if_pos hc, intervalGate_now_now now ABANDONED_TIME hn]
  rfl

/-- The expiry test requires `now > ABANDONED_TIME`, so before that tick
count the state is whatever command processing produced. -/
theorem postState_of_le (ctx : Ctx) (now : Nat) (cmd : Command)
    (h : now ≤ ABANDONED_TIME) :
    postState ctx now cmd = cmdState ctx.state cmd := by
  unfold postState
  rw [intervalGate_le now _ _ h]
  rfl

/-- From `ABANDONED`, an iteration whose command is `NONE` or `PING` stays
in `ABANDONED`: the command `switch` has no case for them, and the expiry
override can only re-assert `ABANDONED`. -/
theorem postState_abandoned_stay (ctx : Ctx) (now : Nat) (cmd : Command)
    (hs : ctx.state = ABANDONED) (hc : cmd = NONE ∨ cmd = PING) :
    postState ctx now cmd = ABANDONED := by
  unfold postState
  split
  · rfl
  · rw [cmdState_stay ctx.state cmd hc]
    exact hs

theorem readSucceeded_of_fires (ctx : Ctx) (now : Nat) (cmd : Command) (tok : TokenRead)
    (h : readFires ctx now cmd = true) :
    readSucceeded ctx now cmd tok = readButtonOk tok := by
  unfold readSucceeded
  rw [h, if_pos rfl]

theorem readSucceeded_of_gated (ctx : Ctx) (now : Nat) (cmd : Command) (tok : TokenRead)
    (h : readFires ctx now cmd = false) :
    readSucceeded ctx now cmd tok = false := by
  unfold readSucceeded
  rw [h, if_neg Bool.false_ne_true]

theorem stepLoop_idOut_fires (ctx : Ctx) (now : Nat) (buf : List Char) (tok : TokenRead)
    (h : readFires ctx now (readSerial buf).1 = true) :
    (stepLoop ctx now buf tok).idOut = readButtonOut tok := by
  rw [stepLoop_idOut]
  unfold readOutput
  rw [h, if_pos rfl]

theorem stepLoop_idOut_gated (ctx : Ctx) (now : Nat) (buf : List Char) (tok : TokenRead)
    (h : readFires ctx now (readSerial buf).1 = false) :
    (stepLoop ctx now buf tok).idOut = "" := by
  rw [stepLoop_idOut]
  unfold readOutput
  rw [h, if_neg Bool.false_ne_true]

theorem stepLoop_lastread_succ (ctx : Ctx) (now : Nat) (buf : List Char) (tok : TokenRead)
    (h : readSucceeded ctx now (readSerial buf).1 tok = true) :
    (stepLoop ctx now buf tok).ctx.lastread = now := by
  rw [stepLoop_lastread, h, if_pos rfl]

theorem stepLoop_lastread_keep (ctx : Ctx) (now : Nat) (buf : List Char) (tok : TokenRead)
    (h : readSucceeded ctx now (readSerial buf).1 tok = false) :
    (stepLoop ctx now buf tok).ctx.lastread = ctx.lastread := by
  rw [stepLoop_lastread, h, if_neg Bool.false_ne_true]

/-! ### Claims -/

/-- C4 counterexample: with threshold `D = 100`, recorded timestamp
`T = 2^32 - 1` and current tick `now = 102` (one counter wrap after `T`),
the modular distance `(now - T) mod 2^32` is `103`, which crosses the
threshold, yet the gate `now - D > T && now > D` does not fire: the claim
that the test "fires exactly when that modular distance crosses the
threshold" is false in the wrap case. -/
theorem gate_wrap_cex :
    usub 102 (M - 1) = 103 ∧ 100 < 103 ∧ 102 < M ∧
      intervalGate 102 (M - 1) 100 = false := by decide

/-- C4 (amended): the combined test `now - D > T && now > D` fires exactly
when `T + D < now` holds in plain non-modular arithmetic; in particular,
when no wrap separates `T` from `now` (`T ≤ now`) it fires exactly when the
modular distance `(now - T) mod 2^32 = usub now T` exceeds `D`, but after a
wrap (`now < T`) it never fires, whatever the modular distance. -/
theorem gate_fires_iff_no_wrap_elapsed (now T D : Nat) (hn : now < M) :
    (intervalGate now T D = true ↔ T + D < now) ∧
    (T ≤ now → (intervalGate now T D = true ↔ usub now T > D)) := by
  refine ⟨intervalGate_true_iff now T D hn, fun hT => ?_⟩
  rw [intervalGate_true_iff now T D hn, usub_of_le now T hT hn]
  omega

/-- C4 witness: the amended characterization at `now = 5000`, `T = 1000`,
`D = 3000`. -/
theorem gate_fires_iff_no_wrap_elapsed_witness :
    5000 < M ∧ (1000 : Nat) ≤ 5000 ∧
      (intervalGate 5000 1000 3000 = true ↔ 1000 + 3000 < 5000) ∧
      (intervalGate 5000 1000 3000 = true ↔ usub 5000 1000 > 3000) :=
  ⟨by decide, by decide, (gate_fires_iff_no_wrap_elapsed 5000 1000 3000 (by decide)).1,
    (gate_fires_iff_no_wrap_elapsed 5000 1000 3000 (by decide)).2 (by decide)⟩

/-- C5: with the startup sentinel `T = 0`, the gate reports `false` whenever
`now` has not yet exceeded `D`; the gate fires only when both the
elapsed-time comparison and the raw `now > D` comparison hold; consequently
neither the abandoned beacon nor the token-read debounce can fire in the
first `D` ticks of process lifetime. -/
theorem startup_suppression :
    (∀ now D : Nat, now ≤ D → intervalGate now 0 D = false) ∧
    (∀ now T D : Nat, intervalGate now T D = true → usub now D > T ∧ now > D) ∧
    (∀ (ctx : Ctx) (now : Nat) (buf : List Char) (tok : TokenRead),
      ctx.lastmsg = 0 → now ≤ ABANDONED_MSG_INTERVAL →
      (stepLoop ctx now buf tok).beacon = "") ∧
    (∀ (ctx : Ctx) (now : Nat) (buf : List Char) (tok : TokenRead),
      ctx.lastread = 0 → now ≤ BUTTON_INTERVAL_TIME →
      (stepLoop ctx now buf tok).idOut = "") := by
  refine ⟨fun now D h => intervalGate_le now 0 D h, ?_, ?_, ?_⟩
  · intro now T D h
    unfold intervalGate at h
    rw [Bool.and_eq_true, decide_eq_true_eq, decide_eq_true_eq] at h
    exact h
  · intro ctx now buf tok hm h
    have hg : intervalGate now ctx.lastmsg ABANDONED_MSG_INTERVAL = false := by
      rw [hm]; exact intervalGate_le now 0 _ h
    have hb : beaconFires ctx now (readSerial buf).1 = false := by
      unfold beaconFires; rw [hg, Bool.and_false]
    rw [stepLoop_beacon, hb]
    rfl
  · intro ctx now buf tok hr h
    have hg : intervalGate now ctx.lastread BUTTON_INTERVAL_TIME = false := by
      rw [hr]; exact intervalGate_le now 0 _ h
    have hf : readFires ctx now (readSerial buf).1 = false := by
      unfold readFires; rw [hg, Bool.and_false]
    rw [stepLoop_idOut]
    unfold readOutput
    rw [hf]
    rfl

/-- C1: along every run of the loop, each iteration drives the relay high
exactly when the authorization state of that same iteration — after the
watchdog-expiry override — is `ENABLED`; in the `DISABLED` and `ABANDONED`
branches the relay is driven low. -/
theorem relay_on_iff_enabled (ctx : Ctx) (buf : List Char) (ins : List IterIn) :
    ∀ r ∈ runLoop ctx buf ins,
      (r.relay = true ↔ r.ctx.state = ENABLED) ∧
      (r.ctx.state = DISABLED ∨ r.ctx.state = ABANDONED → r.relay = false) := by
  induction ins generalizing ctx buf with
  | nil =>
    intro r hr
    simp [runLoop] at hr
  | cons i rest ih =>
    intro r hr
    simp only [runLoop, List.mem_cons] at hr
    rcases hr with hr | hr
    · subst hr
      have hiff : (stepLoop ctx i.now (buf ++ i.bytes) i.tok).relay = true ↔
          (stepLoop ctx i.now (buf ++ i.bytes) i.tok).ctx.state = ENABLED := by
        rw [stepLoop_relay, stepLoop_state]
        exact relayDrive_eq_true_iff _
      refine ⟨hiff, fun hd => ?_⟩
      cases hrel : (stepLoop ctx i.now (buf ++ i.bytes) i.tok).relay
      · rfl
      · rcases hd with hd | hd <;> rw [hiff.mp hrel] at hd <;> cases hd
    · exact ih _ _ r hr

/-- C1 witness: the invariant at the first iteration of the run that
receives `E` at tick 100. -/
theorem relay_on_iff_enabled_witness :
    stepLoop initCtx 100 ['E'] .absent ∈ runLoop initCtx [] [⟨100, ['E'], .absent⟩] ∧
      (((stepLoop initCtx 100 ['E'] .absent).relay = true ↔
        (stepLoop initCtx 100 ['E'] .absent).ctx.state = ENABLED) ∧
        ((stepLoop initCtx 100 ['E'] .absent).ctx.state = DISABLED ∨
          (stepLoop initCtx 100 ['E'] .absent).ctx.state = ABANDONED →
          (stepLoop initCtx 100 ['E'] .absent).relay = false)) :=
  ⟨by decide, relay_on_iff_enabled initCtx [] [⟨100, ['E'], .absent⟩] _ (by decide)⟩

/-- C2 counterexample: at tick 40000 with the watchdog last refreshed at
tick 0 (so the expiry condition holds on entry to the iteration), an
`Enable` command received in the same iteration leaves the end state
`ENABLED`, not `ABANDONED`: the refresh at the top of the iteration
precedes the expiry test, so the same-iteration grant survives. -/
theorem same_tick_enable_beats_expiry_cex :
    intervalGate 40000 initCtx.lastcmd ABANDONED_TIME = true ∧
      (stepLoop initCtx 40000 ['E'] .absent).cmd = ENABLE ∧
      (stepLoop initCtx 40000 ['E'] .absent).ctx.state = ENABLED ∧
      (stepLoop initCtx 40000 ['E'] .absent).ctx.state ≠ ABANDONED := by decide

/-- C2 (amended): if the watchdog-expiry condition holds on entry to an
iteration (measured against the pre-iteration refresh timestamp) and an
`Enable` command is received in that same iteration, the end state is
`ENABLED`: the command refreshes the watchdog before the expiry test is
evaluated, so the grant overrides the pending expiry, not the other way
round. -/
theorem enable_overrides_pending_expiry (ctx : Ctx) (now : Nat) (buf : List Char)
    (tok : TokenRead) (hn : now < M)
    (_hexp : intervalGate now ctx.lastcmd ABANDONED_TIME = true)
    (hcmd : (stepLoop ctx now buf tok).cmd = ENABLE) :
    (stepLoop ctx now buf tok).ctx.state = ENABLED := by
  rw [stepLoop_cmd] at hcmd
  rw [stepLoop_state, hcmd]
  rw [postState_of_cmd ctx now ENABLE hn (by simp)]
  rfl

/-- C2 witness: the amended claim at the counterexample input. -/
theorem enable_overrides_pending_expiry_witness :
    40000 < M ∧ intervalGate 40000 initCtx.lastcmd ABANDONED_TIME = true ∧
      (stepLoop initCtx 40000 ['E'] .absent).cmd = ENABLE ∧
      (stepLoop initCtx 40000 ['E'] .absent).ctx.state = ENABLED :=
  ⟨by decide, by decide, by decide,
    enable_overrides_pending_expiry initCtx 40000 ['E'] .absent (by decide) (by decide)
      (by decide)⟩

/-- C3: starting from `ABANDONED`, a run whose iterations only ever parse
`PING` (or no command at all, `NONE`) never leaves `ABANDONED`, even though
each `PING` refreshes the watchdog timestamp; and the only way a single
iteration can move the state out of `ABANDONED` is an `ENABLE` or `DISABLE`
command. -/
theorem abandoned_ping_invariant :
    (∀ (ctx : Ctx) (buf : List Char) (ins : List IterIn), ctx.state = ABANDONED →
      (∀ r ∈ runLoop ctx buf ins, r.cmd = PING ∨ r.cmd = NONE) →
      ∀ r ∈ runLoop ctx buf ins, r.ctx.state = ABANDONED) ∧
    (∀ (ctx : Ctx) (now : Nat) (buf : List Char) (tok : TokenRead),
      ctx.state = ABANDONED → (stepLoop ctx now buf tok).ctx.state ≠ ABANDONED →
      (stepLoop ctx now buf tok).cmd = ENABLE ∨
        (stepLoop ctx now buf tok).cmd = DISABLE) := by
  constructor
  · intro ctx buf ins
    induction ins generalizing ctx buf with
    | nil =>
      intro _ _ r hr
      simp [runLoop] at hr
    | cons i rest ih =>
      intro hs hcmds r hr
      have hhead : (stepLoop ctx i.now (buf ++ i.bytes) i.tok).ctx.state = ABANDONED := by
        have hc := hcmds (stepLoop ctx i.now (buf ++ i.bytes) i.tok)
          (by simp only [runLoop]; exact List.mem_cons_self _ _)
        rw [stepLoop_cmd] at hc
        rw [stepLoop_state]
        exact postState_abandoned_stay ctx i.now _ hs (Or.symm hc)
      simp only [runLoop, List.mem_cons] at hr
      rcases hr with hr | hr
      · subst hr; exact hhead
      · refine ih _ _ hhead ?_ r hr
        intro r' hr'
        exact hcmds r' (by simp only [runLoop, List.mem_cons]; exact Or.inr hr')
  · intro ctx now buf tok hs hne
    rw [stepLoop_cmd]
    rw [stepLoop_state] at hne
    cases hc : (readSerial buf).1 with
    | NONE => exact absurd (postState_abandoned_stay ctx now _ hs (Or.inl hc)) hne
    | PING => exact absurd (postState_abandoned_stay ctx now _ hs (Or.inr hc)) hne
    | ENABLE => exact Or.inl rfl
    | DISABLE => exact Or.inr rfl

/-- C3 witness: two `PING`-only iterations from `ABANDONED` (the second past
the watchdog timeout) stay `ABANDONED`; an `E` at tick 50 leaves
`ABANDONED`, and it is indeed an `ENABLE`/`DISABLE` that did it. -/
theorem abandoned_ping_invariant_witness :
    (stepLoop (stepLoop initCtx 100 ['P'] .absent).ctx 40000 ['P'] .absent).ctx.state =
        ABANDONED ∧
      ((stepLoop initCtx 50 ['E'] .absent).cmd = ENABLE ∨
        (stepLoop initCtx 50 ['E'] .absent).cmd = DISABLE) :=
  ⟨abandoned_ping_invariant.1 initCtx []
      [⟨100, ['P'], .absent⟩, ⟨40000, ['P'], .absent⟩] rfl (by decide) _ (by decide),
    abandoned_ping_invariant.2 initCtx 50 ['E'] .absent rfl (by decide)⟩

/-- C10: the overflow guard at the top of the iteration makes a wrapped tick
behave exactly as if the watchdog timestamp were 0; consequently, until the
tick counter passes `ABANDONED_TIME` again, the expiry override cannot fire
and the state is whatever command processing produced, however long the
managing device has really been silent. -/
theorem wrap_guard_behavior :
    (∀ (ctx : Ctx) (now : Nat) (buf : List Char) (tok : TokenRead),
      now < ctx.lastcmd →
      stepLoop ctx now buf tok =
        stepLoop ⟨ctx.state, ctx.lastread, 0, ctx.lastmsg⟩ now buf tok) ∧
    (∀ (ctx : Ctx) (now : Nat) (buf : List Char) (tok : TokenRead),
      now ≤ ABANDONED_TIME →
      (stepLoop ctx now buf tok).ctx.state =
        cmdState ctx.state (stepLoop ctx now buf tok).cmd) := by
  constructor
  · intro ctx now buf tok h
    have hc : lastcmdIn ctx now = lastcmdIn ⟨ctx.state, ctx.lastread, 0, ctx.lastmsg⟩ now := by
      unfold lastcmdIn
      simp [h]
    cases ctx with
    | mk s r c m =>
      simp only [stepLoop, postState, lastcmdSeen, readFires, readSucceeded, readOutput,
        beaconFires, hc]
  · intro ctx now buf tok h
    rw [stepLoop_state, stepLoop_cmd]
    exact postState_of_le ctx now _ h

/-- C10 witness: a wrapped tick (100 while `lastcmd` is 4000000000) behaves
as the reset-to-0 context, and at tick 100 the expiry cannot fire. -/
theorem wrap_guard_behavior_witness :
    ((100 : Nat) < 4000000000 ∧
      stepLoop ⟨ENABLED, 0, 4000000000, 0⟩ 100 [] .absent =
        stepLoop ⟨ENABLED, 0, 0, 0⟩ 100 [] .absent) ∧
    ((100 : Nat) ≤ ABANDONED_TIME ∧
      (stepLoop ⟨ENABLED, 0, 4000000000, 0⟩ 100 [] .absent).ctx.state =
        cmdState ENABLED (stepLoop ⟨ENABLED, 0, 4000000000, 0⟩ 100 [] .absent).cmd) :=
  ⟨⟨by decide, wrap_guard_behavior.1 ⟨ENABLED, 0, 4000000000, 0⟩ 100 [] .absent (by decide)⟩,
    ⟨by decide, wrap_guard_behavior.2 ⟨ENABLED, 0, 4000000000, 0⟩ 100 [] .absent (by decide)⟩⟩

/-- C5 witness: the suppression at concrete early ticks (tick 100 with the
3000-tick debounce, a beacon check at tick 4000 from startup, a token
presented at tick 2000 from startup). -/
theorem startup_suppression_witness :
    (100 ≤ 3000 ∧ intervalGate 100 0 3000 = false) ∧
    (usub 5000 3000 > 1000 ∧ 5000 > 3000) ∧
    (initCtx.lastmsg = 0 ∧ (4000 : Nat) ≤ ABANDONED_MSG_INTERVAL ∧
      (stepLoop initCtx 4000 [] .absent).beacon = "") ∧
    (initCtx.lastread = 0 ∧ (2000 : Nat) ≤ BUTTON_INTERVAL_TIME ∧
      (stepLoop initCtx 2000 [] (.present [1, 2, 3, 4, 5, 6, 7, 8] true)).idOut = "") :=
  ⟨⟨by decide, startup_suppression.1 100 3000 (by decide)⟩,
    startup_suppression.2.1 5000 1000 3000 (by decide),
    ⟨rfl, by decide, startup_suppression.2.2.1 initCtx 4000 [] .absent rfl (by decide)⟩,
    ⟨rfl, by decide,
      startup_suppression.2.2.2 initCtx 2000 [] (.present [1, 2, 3, 4, 5, 6, 7, 8] true)
        rfl (by decide)⟩⟩

/-! ### Token-read debounce and checksum transparency -/

/-- A validated read always writes a nonempty line (it starts with `<`). -/
theorem readButtonOut_valid_ne_empty (id : List Nat) :
    readButtonOut (.present id true) ≠ "" := by
  simp only [readButtonOut]
  rw [if_neg (by simp)]
  intro h
  have hlen := congrArg String.length h
  rw [String.length_append, String.length_append] at hlen
  have h1 : ("<" : String).length = 1 := by decide
  have h2 : (">\n" : String).length = 2 := by decide
  have h3 : ("" : String).length = 0 := by decide
  omega

/-- How many identifier lines one iteration emits (0 or 1). -/
def idEmissions (r : LoopResult) : Nat :=
  if r.idOut = "" then 0 else 1

/-- C6 (amended): with the managing device alive (`PING` each iteration) and
the state not `ABANDONED`, a valid token read at tick `t1` (debounce gate
open) emits one identifier line and records `lastread = t1`; a second valid
read at tick `t2` is gated off — producing one emission in total — whenever
`t2 ≤ t1 + BUTTON_INTERVAL_TIME`, i.e. also at a separation of exactly
`BUTTON_INTERVAL_TIME`; only a separation strictly greater than
`BUTTON_INTERVAL_TIME` produces a second emission, which records
`lastread = t2`. -/
theorem debounce_two_reads (ctx : Ctx) (t1 t2 : Nat) (id : List Nat)
    (hstate : ctx.state ≠ ABANDONED)
    (h1M : t1 < M) (h2M : t2 < M)
    (hgate : intervalGate t1 ctx.lastread BUTTON_INTERVAL_TIME = true) :
    idEmissions (stepLoop ctx t1 ['P'] (.present id true)) = 1 ∧
    (stepLoop ctx t1 ['P'] (.present id true)).ctx.lastread = t1 ∧
    (t2 ≤ t1 + BUTTON_INTERVAL_TIME →
      idEmissions (stepLoop ctx t1 ['P'] (.present id true)) +
        idEmissions (stepLoop (stepLoop ctx t1 ['P'] (.present id true)).ctx t2 ['P']
          (.present id true)) = 1 ∧
      (stepLoop (stepLoop ctx t1 ['P'] (.present id true)).ctx t2 ['P']
        (.present id true)).ctx.lastread = t1) ∧
    (t1 + BUTTON_INTERVAL_TIME < t2 →
      idEmissions (stepLoop ctx t1 ['P'] (.present id true)) +
        idEmissions (stepLoop (stepLoop ctx t1 ['P'] (.present id true)).ctx t2 ['P']
          (.present id true)) = 2 ∧
      (stepLoop (stepLoop ctx t1 ['P'] (.present id true)).ctx t2 ['P']
        (.present id true)).ctx.lastread = t2) := by
  have hping : (readSerial ['P']).1 = PING := rfl
  have hps1 : postState ctx t1 PING = ctx.state := by
    rw [postState_of_cmd ctx t1 PING h1M (by simp),
      cmdState_stay ctx.state PING (Or.inr rfl)]
  have hf1 : readFires ctx t1 PING = true := by
    unfold readFires
    rw [hps1, hgate, decide_eq_true hstate, Bool.true_and]
  have hio1 : (stepLoop ctx t1 ['P'] (.present id true)).idOut =
      readButtonOut (.present id true) := by
    rw [stepLoop_idOut_fires _ _ _ _ (hping ▸ hf1)]
  have hsucc1 : readSucceeded ctx t1 PING (.present id true) = true := by
    rw [readSucceeded_of_fires _ _ _ _ hf1]
    rfl
  have hlr1 : (stepLoop ctx t1 ['P'] (.present id true)).ctx.lastread = t1 := by
    rw [stepLoop_lastread_succ _ _ _ _ (hping ▸ hsucc1)]
  have hst1 : (stepLoop ctx t1 ['P'] (.present id true)).ctx.state = ctx.state := by
    rw [stepLoop_state, hping, hps1]
  have he1 : idEmissions (stepLoop ctx t1 ['P'] (.present id true)) = 1 := by
    unfold idEmissions
    rw [hio1, if_neg (readButtonOut_valid_ne_empty id)]
  have hps2 : postState (stepLoop ctx t1 ['P'] (.present id true)).ctx t2 PING =
      ctx.state := by
    rw [postState_of_cmd _ t2 PING h2M (by simp),
      cmdState_stay _ PING (Or.inr rfl)]
    exact hst1
  refine ⟨he1, hlr1, fun hle => ?_, fun hlt => ?_⟩
  · have hg2 : intervalGate t2
        (stepLoop ctx t1 ['P'] (.present id true)).ctx.lastread BUTTON_INTERVAL_TIME
        = false := by
      rw [hlr1]
      cases hgg : intervalGate t2 t1 BUTTON_INTERVAL_TIME with
      | false => rfl
      | true =>
        exact absurd ((intervalGate_true_iff t2 t1 BUTTON_INTERVAL_TIME h2M).mp hgg)
          (by omega)
    have hf2 : readFires (stepLoop ctx t1 ['P'] (.present id true)).ctx t2 PING = false := by
      unfold readFires
      rw [hg2, Bool.and_false]
    constructor
    · rw [he1]
      unfold idEmissions
      rw [stepLoop_idOut_gated _ _ _ _ (hping ▸ hf2), if_pos rfl]
    · rw [stepLoop_lastread_keep _ _ _ _
        (hping ▸ readSucceeded_of_gated _ t2 PING (.present id true) hf2)]
      exact hlr1
  · have hg2 : intervalGate t2
        (stepLoop ctx t1 ['P'] (.present id true)).ctx.lastread BUTTON_INTERVAL_TIME
        = true := by
      rw [hlr1]
      exact (intervalGate_true_iff t2 t1 BUTTON_INTERVAL_TIME h2M).mpr hlt
    have hf2 : readFires (stepLoop ctx t1 ['P'] (.present id true)).ctx t2 PING = true := by
      unfold readFires
      rw [hps2, hg2, decide_eq_true hstate, Bool.true_and]
    have hsucc2 : readSucceeded (stepLoop ctx t1 ['P'] (.present id true)).ctx t2 PING
        (.present id true) = true := by
      rw [readSucceeded_of_fires _ _ _ _ hf2]
      rfl
    constructor
    · rw [he1]
      unfold idEmissions
      rw [stepLoop_idOut_fires _ _ _ _ (hping ▸ hf2),
        if_neg (readButtonOut_valid_ne_empty id)]
    · rw [stepLoop_lastread_succ _ _ _ _ (hping ▸ hsucc2)]

/-- C6 counterexample: two valid reads separated by exactly
`BUTTON_INTERVAL_TIME` ticks (4000 and 7000) yield one emission, not two:
the gate uses a strict comparison, so "at least `BUTTON_INTERVAL` ticks"
does not suffice for a second emission. -/
theorem debounce_exact_interval_cex :
    (7000 : Nat) - 4000 ≥ BUTTON_INTERVAL_TIME ∧
      (⟨DISABLED, 0, 0, 0⟩ : Ctx).state ≠ ABANDONED ∧
      idEmissions (stepLoop ⟨DISABLED, 0, 0, 0⟩ 4000 ['P']
        (.present [1, 2, 3, 4, 5, 6, 7, 8] true)) = 1 ∧
      idEmissions (stepLoop (stepLoop ⟨DISABLED, 0, 0, 0⟩ 4000 ['P']
          (.present [1, 2, 3, 4, 5, 6, 7, 8] true)).ctx 7000 ['P']
        (.present [1, 2, 3, 4, 5, 6, 7, 8] true)) = 0 := by decide

/-- C6 witness: reads at ticks 4000 and 8000 (separation 4000, strictly more
than the debounce interval) give two emissions. -/
theorem debounce_two_reads_witness :
    idEmissions (stepLoop ⟨DISABLED, 0, 0, 0⟩ 4000 ['P']
        (.present [1, 2, 3, 4, 5, 6, 7, 8] true)) +
      idEmissions (stepLoop (stepLoop ⟨DISABLED, 0, 0, 0⟩ 4000 ['P']
          (.present [1, 2, 3, 4, 5, 6, 7, 8] true)).ctx 8000 ['P']
        (.present [1, 2, 3, 4, 5, 6, 7, 8] true)) = 2 :=
  ((debounce_two_reads ⟨DISABLED, 0, 0, 0⟩ 4000 8000 [1, 2, 3, 4, 5, 6, 7, 8]
      (by decide) (by decide) (by decide) (by decide)).2.2.2 (by decide)).1

/-- C7: a read whose checksum fails is fully transparent: `readButton`
reports failure and writes nothing, and the whole loop iteration is
indistinguishable from one in which no token was present at all — same end
state, same timestamps (in particular `lastread`), same relay and same
serial output — so it cannot postpone the eligibility of the next valid
read. -/
theorem invalid_crc_transparent :
    (∀ id : List Nat, readButton (.present id false) = (false, "")) ∧
    (∀ (ctx : Ctx) (now : Nat) (buf : List Char) (id : List Nat),
      stepLoop ctx now buf (.present id false) = stepLoop ctx now buf .absent) := by
  constructor
  · intro id
    rfl
  · intro ctx now buf id
    have hok : readButtonOk (.present id false) = readButtonOk .absent := rfl
    have hout : readButtonOut (.present id false) = readButtonOut .absent := by
      simp only [readButtonOut]
      rw [if_pos trivial]
    simp only [stepLoop, readSucceeded, readOutput, hok, hout]

/-! ### Command parser characterization -/

/-- The three inbound bytes `readSerial()` recognizes. -/
def recognized (c : Char) : Bool :=
  c = 'E' || c = 'D' || c = 'P'

/-- The command a recognized byte parses to. -/
def cmdFor (c : Char) : Command :=
  if c = 'E' then ENABLE else if c = 'D' then DISABLE else PING

/-- The acknowledgement line a recognized byte elicits. -/
def ackFor (c : Char) : String :=
  if c = 'E' then "ENABLED\n" else if c = 'D' then "DISABLED\n" else "PONG\n"

/-- C8: `readSerial` consumes buffered bytes one at a time until the buffer
is empty or a recognized byte (`'E'`, `'D'`, `'P'`) is found.  A buffer with
no recognized byte is consumed entirely, yields no command and no reply; a
buffer that decomposes as unrecognized bytes followed by a first recognized
byte `c` yields exactly the command of `c` and exactly its acknowledgement,
and leaves the bytes after `c` in the buffer for the next iteration — hence
at most one command per iteration, and unrecognized bytes are discarded
silently. -/
theorem readSerial_characterization :
    (∀ buf : List Char, (∀ c ∈ buf, recognized c = false) →
      readSerial buf = (NONE, [], "")) ∧
    (∀ (pre : List Char) (c : Char) (suf : List Char),
      (∀ b ∈ pre, recognized b = false) → recognized c = true →
      readSerial (pre ++ c :: suf) = (cmdFor c, suf, ackFor c)) := by
  have hunrec : ∀ c : Char, recognized c = false →
      ¬(c = 'E') ∧ ¬(c = 'D') ∧ ¬(c = 'P') := by
    intro c hc
    unfold recognized at hc
    simp only [Bool.or_eq_false_iff, decide_eq_false_iff_not] at hc
    exact ⟨hc.1.1, hc.1.2, hc.2⟩
  constructor
  · intro buf
    induction buf with
    | nil => intro _; rfl
    | cons c rest ih =>
      intro h
      have hc := hunrec c (h c (List.mem_cons_self c rest))
      show readSerial (c :: rest) = (NONE, [], "")
      rw [readSerial, if_neg hc.1, if_neg hc.2.1, if_neg hc.2.2]
      exact ih fun b hb => h b (List.mem_cons_of_mem c hb)
  · intro pre c suf hpre hc
    induction pre with
    | nil =>
      unfold recognized at hc
      simp only [Bool.or_eq_true, decide_eq_true_eq] at hc
      rcases hc with (hc | hc) | hc <;> subst hc <;> rfl
    | cons b pre' ih =>
      have hb := hunrec b (hpre b (List.mem_cons_self b pre'))
      show readSerial (b :: (pre' ++ c :: suf)) = (cmdFor c, suf, ackFor c)
      rw [readSerial, if_neg hb.1, if_neg hb.2.1, if_neg hb.2.2]
      exact ih fun x hx => hpre x (List.mem_cons_of_mem b hx)

/-- C8 witness: an unrecognized byte before the first recognized one is
skipped, the `E` is acknowledged, and the `D` after it is left buffered; a
buffer of only unrecognized bytes yields nothing. -/
theorem readSerial_characterization_witness :
    recognized 'x' = false ∧ recognized 'E' = true ∧
      readSerial ['x', 'E', 'D'] = (cmdFor 'E', ['D'], ackFor 'E') ∧
      readSerial ['x', 'y'] = (NONE, [], "") :=
  ⟨by decide, by decide,
    readSerial_characterization.2 ['x'] 'E' ['D'] (by decide) (by decide),
    readSerial_characterization.1 ['x', 'y'] (by decide)⟩

/-! ### Identifier line format -/

/-- Two-digit rendering of one byte, following the spec's words: the byte
as two-digit uppercase hexadecimal, zero-padded when below `0x10`. -/
def specHexByte (b : Nat) : String :=
  String.mk [hexDigit (b / 16), hexDigit (b % 16)]

/-- The 8 bytes rendered two digits each, concatenated with no separator. -/
def hexBytes : List Nat → String
  | [] => ""
  | b :: t => specHexByte b ++ hexBytes t

/-- Numeric value of one emitted hexadecimal digit character. -/
def hexVal (c : Char) : Nat :=
  if c ≤ '9' then c.toNat - 48 else c.toNat - 55

/-- An uppercase hexadecimal digit character: `0`-`9` or `A`-`F`. -/
def isUpperHexDigit (c : Char) : Bool :=
  decide ('0' ≤ c ∧ c ≤ '9') || decide ('A' ≤ c ∧ c ≤ 'F')

theorem hexPad_eq (b : Nat) :
    (if b < 16 then "0" else "") ++ printHexNum b = specHexByte b := by
  unfold printHexNum specHexByte
  by_cases h : b < 16
  · rw [if_pos h, if_pos h, Nat.div_eq_of_lt h, Nat.mod_eq_of_lt h]
    rfl
  · rw [if_neg h, if_neg h]
    rfl

theorem foldl_hex (l : List Nat) (s : String) :
    l.foldl (fun acc b =>
      acc ++ (if b < 16 then "0" else "") ++ printHexNum b) s = s ++ hexBytes l := by
  induction l generalizing s with
  | nil =>
    show s = s ++ ""
    exact (String.append_empty s).symm
  | cons b t ih =>
    show List.foldl _ ((s ++ (if b < 16 then "0" else "")) ++ printHexNum b) t = _
    rw [ih, String.append_assoc s _ _, hexPad_eq b, hexBytes, ← String.append_assoc]

theorem hexVal_hexDigit (d : Nat) (hd : d < 16) : hexVal (hexDigit d) = d := by
  have h16 : ∀ e : Fin 16, hexVal (hexDigit e.val) = e.val := by decide
  exact h16 ⟨d, hd⟩

theorem isUpperHexDigit_hexDigit (d : Nat) (hd : d < 16) :
    isUpperHexDigit (hexDigit d) = true := by
  have h16 : ∀ e : Fin 16, isUpperHexDigit (hexDigit e.val) = true := by decide
  exact h16 ⟨d, hd⟩

/-- C9: a validated token read emits exactly `<`, the identifier bytes each
rendered as `specHexByte` with no separators, `>`, and a line break; and for
every byte value the rendering is two characters long, both uppercase
hexadecimal digits, with the byte value reconstructible from the two digits
(so the high digit is `0` when the byte is below `0x10`). -/
theorem token_line_format :
    (∀ id : List Nat,
      readButton (.present id true) = (true, "<" ++ hexBytes id ++ ">\n")) ∧
    (∀ id : List Nat, (hexBytes id).length = 2 * id.length) ∧
    (∀ b : Nat, b < 256 →
      (specHexByte b).length = 2 ∧
      (∀ c ∈ (specHexByte b).data, isUpperHexDigit c = true) ∧
      hexVal (hexDigit (b / 16)) * 16 + hexVal (hexDigit (b % 16)) = b) := by
  refine ⟨?_, ?_, ?_⟩
  · intro id
    have hout : readButtonOut (.present id true) = "<" ++ hexBytes id ++ ">\n" := by
      simp only [readButtonOut]
      rw [if_neg (by simp), foldl_hex id "", String.empty_append]
    unfold readButton
    rw [hout]
    rfl
  · intro id
    induction id with
    | nil => rfl
    | cons b t ih =>
      show (specHexByte b ++ hexBytes t).length = 2 * (t.length + 1)
      rw [String.length_append, ih]
      have h2 : (specHexByte b).length = 2 := rfl
      omega
  · intro b hb
    have hdiv : b / 16 < 16 := by omega
    have hmod : b % 16 < 16 := by omega
    refine ⟨rfl, ?_, ?_⟩
    · intro c hcmem
      have hdata : (specHexByte b).data = [hexDigit (b / 16), hexDigit (b % 16)] := rfl
      rw [hdata] at hcmem
      simp only [List.mem_cons, List.not_mem_nil, or_false] at hcmem
      rcases hcmem with hcmem | hcmem
      · rw [hcmem]
        exact isUpperHexDigit_hexDigit _ hdiv
      · rw [hcmem]
        exact isUpperHexDigit_hexDigit _ hmod
    · rw [hexVal_hexDigit _ hdiv, hexVal_hexDigit _ hmod]
      omega

/-- C9 witness: the identifier bytes DE AD BE EF 00 01 02 03 emit exactly
`<DEADBEEF00010203>` with a line break; the byte `0x0A` renders as the
zero-padded uppercase pair `0A` and reconstructs from its digits. -/
theorem token_line_format_witness :
    readButton (.present [222, 173, 190, 239, 0, 1, 2, 3] true) =
        (true, "<" ++ hexBytes [222, 173, 190, 239, 0, 1, 2, 3] ++ ">\n") ∧
      "<" ++ hexBytes [222, 173, 190, 239, 0, 1, 2, 3] ++ ">\n" = "<DEADBEEF00010203>\n" ∧
      (10 : Nat) < 256 ∧ (specHexByte 10).length = 2 ∧ specHexByte 10 = "0A" ∧
      hexVal (hexDigit (10 / 16)) * 16 + hexVal (hexDigit (10 % 16)) = 10 :=
  ⟨token_line_format.1 [222, 173, 190, 239, 0, 1, 2, 3], by decide, by decide,
    (token_line_format.2.2 10 (by decide)).1, by decide,
    (token_line_format.2.2 10 (by decide)).2.2⟩

end Authoduino
